import Mathlib

/-!
Verification development for the article-extraction service
(repository Nextjs-Extract-Article-Content).

The definitions below are shallow embeddings of the repository's Go and
JavaScript sources:

* text utilities (`CleanWhitespace`, `CleanTextContent`, `ContainsAny`)
  from the scraper text-processing file;
* the ad-hoc case-insensitive containment helpers (`contains`, `indexOf`,
  `toLower`, `containsAny`) from internal/scraper/scraper.go;
* the HTTP fetch/retry logic from internal/scraper/http.go and the body
  streaming loop of lambda/scraper.js;
* alternate-URL generation from internal/scraper/http.go;
* the image-candidate pipeline (srcset selection, dimension mining,
  filters, scoring, sorting, top-N selection) from
  internal/scraper/images.go with the regex patterns of
  internal/config/config.go;
* the two-phase orchestrator control flow of ScrapeSmart / scrapeSmart.

Strings are modelled as `List Char`; machine integers as `Int`/`Nat`
(the Go values involved stay far from the 64-bit range except where an
explicit `Atoi` range check is modelled); `float64` scores are modelled
as `ℚ` (the claims settled here do not depend on floating-point
rounding).  HTML/goquery parsing and net/url resolution are external
libraries, not code of this repository: parsed tag data and the URL
resolver are therefore inputs of the embedded pipeline.
-/

/- ## Go string primitives -/

/-- Byte-wise ASCII lowercasing, as implemented by toLower in
internal/scraper/scraper.go.  strings.ToLower of the standard library
agrees with it on ASCII input. -/
def toLowerGo (l : List Char) : List Char :=
  l.map (fun c => if 'A' ≤ c ∧ c ≤ 'Z' then Char.ofNat (c.toNat + 32) else c)

/-- White space recognised by Go's unicode.IsSpace (the Latin-1 range). -/
def goIsSpace (c : Char) : Bool :=
  c = ' ' ∨ c = '\t' ∨ c = '\n' ∨ c = '\x0B' ∨ c = '\x0C' ∨ c = '\r' ∨
    c = '\x85' ∨ c = '\xA0'

/-- Go strings.TrimSpace: drop white space from both ends. -/
def goTrimSpace (l : List Char) : List Char :=
  ((l.dropWhile goIsSpace).reverse.dropWhile goIsSpace).reverse

/-- Fuel-driven core of Go strings.ReplaceAll: replace the leftmost
occurrence, continue after the replacement (the replacement text is not
rescanned), never rescan inside a replaced segment.  The fuel starts at
the input length, which bounds the number of steps, so the fuel-0 case
is never reached on the initial call. -/
def replaceAllAux (pat rep : List Char) : Nat → List Char → List Char
  | _, [] => []
  | 0, l => l
  | fuel + 1, c :: r =>
    if pat ≠ [] ∧ pat.isPrefixOf (c :: r) then
      rep ++ replaceAllAux pat rep fuel ((c :: r).drop pat.length)
    else
      c :: replaceAllAux pat rep fuel r

/-- Go strings.ReplaceAll (for a non-empty pattern, which is the only
way the repository uses it). -/
def replaceAll (pat rep l : List Char) : List Char :=
  replaceAllAux pat rep l.length l

/-- Go strings.Contains: scan for the pattern at every position. -/
def containsSub (sub : List Char) : List Char → Bool
  | [] => sub.isEmpty
  | c :: r => sub.isPrefixOf (c :: r) || containsSub sub r

/- ## Text cleaning (scraper text-processing utilities) -/

/-- CleanWhitespace from the text-processing file: one ReplaceAll pass
turning a triple newline into a double newline, one ReplaceAll pass
turning a double space into a single space, then TrimSpace. -/
def CleanWhitespace (text : List Char) : List Char :=
  if text = [] then []
  else
    goTrimSpace
      (replaceAll "  ".toList " ".toList
        (replaceAll "\n\n\n".toList "\n\n".toList text))

/-- The line filter inside CleanTextContent: split on newlines, trim
each line, and keep only lines that are empty or longer than 20
characters. -/
def filteredLines (text : List Char) : List (List Char) :=
  ((text.splitOn '\n').map goTrimSpace).filter
    (fun line => decide (line.length = 0 ∨ 20 < line.length))

/-- CleanTextContent from the text-processing file: drop short
non-empty lines, re-join with newlines, then CleanWhitespace. -/
def CleanTextContent (text : List Char) : List Char :=
  if text = [] then []
  else CleanWhitespace (List.intercalate ['\n'] (filteredLines text))

/-- ContainsAny from the text-processing file: lowercase both sides and
use standard substring containment. -/
def ContainsAny (s : List Char) (subs : List (List Char)) : Bool :=
  subs.any (fun sub => containsSub (toLowerGo sub) (toLowerGo s))

/- ## Ad-hoc containment helpers of internal/scraper/scraper.go -/

/-- Fuel-driven core of indexOf from internal/scraper/scraper.go: the
loop index i runs while i + len(sub) ≤ len(s), comparing slices.  The
fuel starts above the number of loop iterations, so the fuel-0 case is
never reached on the initial call. -/
def goIndexOfAux (s sub : List Char) : Nat → Nat → Int
  | 0, _ => -1
  | fuel + 1, i =>
    if i + sub.length ≤ s.length then
      if (s.drop i).take sub.length = sub then (i : Int)
      else goIndexOfAux s sub fuel (i + 1)
    else -1

/-- indexOf from internal/scraper/scraper.go: lowercase both strings,
then scan for the first slice match; -1 when absent. -/
def goIndexOf (s substr : List Char) : Int :=
  goIndexOfAux (toLowerGo s) (toLowerGo substr) (s.length + 1) 0

/-- contains from internal/scraper/scraper.go, translated verbatim:
length guard, case-sensitive equality, then (only when strictly longer)
case-sensitive prefix/suffix checks or the case-insensitive indexOf. -/
def goContains (s substr : List Char) : Bool :=
  decide (substr.length ≤ s.length) &&
    (s == substr ||
      (decide (substr.length < s.length) &&
        (substr.isPrefixOf s || substr.isSuffixOf s ||
          decide (0 ≤ goIndexOf s substr))))

/-- containsAny from internal/scraper/scraper.go. -/
def goContainsAny (s : List Char) (subs : List (List Char)) : Bool :=
  subs.any (fun sub => goContains s sub)

/-- The substring list used by isCloudflareBlock in
internal/scraper/scraper.go. -/
def cfBlockSubstrings : List (List Char) :=
  ["CF_BLOCKED".toList, "cloudflare".toList, "HTTP 403".toList,
    "all alternate URLs failed".toList]

/-- isCloudflareBlock from internal/scraper/scraper.go (on the error
message of a failed scrape; a nil error is modelled by the caller). -/
def isCloudflareBlock (errMsg : List Char) : Bool :=
  goContainsAny errMsg cfBlockSubstrings

/- ## HTTP fetching (internal/scraper/http.go and lambda/scraper.js) -/

/-- An HTTP response as seen by the fetchers: status code, Content-Type
header, and the raw body. -/
structure GoResponse where
  status : Nat
  contentType : List Char
  body : List Char

/-- MaxRetries of the default scrape configuration (config.go). -/
def goMaxRetries : Nat := 2

/-- SizeLimitBytes of the default scrape configuration (config.go). -/
def goSizeLimitBytes : Nat := 6000000

/-- Fuel-driven mutual body of FetchHTML / retryWithBackoff from
internal/scraper/http.go.  The attempt oracle gives the response of the
attempt with a given retryCount (none models a transport error).  The
result pairs the list of backoff sleeps (milliseconds, in order) with
the outcome.  Recursion only happens while retryCount < MaxRetries, so
fuel 3 is enough for every start value and the fuel-0 case is never
reached from `goFetchHTML`. -/
def goFetchAux (oracle : Nat → Option GoResponse) :
    Nat → Nat → List Nat × Except (List Char) (List Char)
  | 0, _ => ([], .error "fuel exhausted".toList)
  | fuel + 1, retryCount =>
    match oracle retryCount with
    | none => ([], .error "request failed".toList)
    | some r =>
      if 500 ≤ r.status then
        -- retryWithBackoff(ctx, targetURL, retryCount)
        if goMaxRetries ≤ retryCount then
          ([], .error "max retries exceeded".toList)
        else
          let d := min (1000 * 2 ^ retryCount) 5000
          let p := goFetchAux oracle fuel (retryCount + 1)
          (d :: p.1, p.2)
      else if 400 ≤ r.status then
        ([], .error (("HTTP " ++ toString r.status).toList))
      else if !containsSub "text/html".toList (toLowerGo r.contentType) then
        ([], .error (("non-HTML content-type: ").toList ++ r.contentType))
      else
        ([], .ok (r.body.take goSizeLimitBytes))

/-- FetchHTML from internal/scraper/http.go, starting at a given
retryCount. -/
def goFetchHTML (oracle : Nat → Option GoResponse) (retryCount : Nat) :
    List Nat × Except (List Char) (List Char) :=
  goFetchAux oracle (2 + 1) retryCount

/-- The body-streaming loop of fetchHtml in lambda/scraper.js (also
present verbatim in the legacy lambda): accumulate chunks, throwing
"HTML too large" as soon as the running total exceeds the size cap. -/
def jsReadChunks (cap : Nat) : Nat → List (List Char) →
    Except (List Char) (List Char)
  | _, [] => .ok []
  | total, ch :: rest =>
    if cap < total + ch.length then .error "HTML too large".toList
    else
      match jsReadChunks cap (total + ch.length) rest with
      | .error e => .error e
      | .ok out => .ok (ch ++ out)

/- ## Orchestrators (lambda/scraper.js scrapeSmart, scraper.go ScrapeSmart) -/

/-- scrapeSmart from lambda/scraper.js: try the fetch phase; on any
error whatsoever fall through to the puppeteer phase (the regex test on
the error message in the catch block has an empty body and does not
affect control flow). -/
def scrapeSmartJs {α : Type} (phaseA phaseB : Except (List Char) α) :
    Except (List Char) α :=
  match phaseA with
  | .ok a => .ok a
  | .error _ => phaseB

/-- Whether the lambda orchestrator reaches the browser phase for a
given fetch-phase outcome. -/
def browserAttemptedJs {α : Type} (phaseA : Except (List Char) α) : Bool :=
  match phaseA with
  | .ok _ => false
  | .error _ => true

/-- Terminal outcome of ScrapeSmart in internal/scraper/scraper.go. -/
inductive GoScrapeOutcome where
  | success (html finalURL : List Char)
  | blocked (domain : List Char)
  | failed (errMsg : List Char)

/-- ScrapeSmart from internal/scraper/scraper.go over abstract phase
outcomes: phase 1 (HTTP with alternates), on any error phase 2
(browser), then Cloudflare classification of the final error. -/
def goScrapeSmart (hostname : List Char)
    (phaseA phaseB : Except (List Char) (List Char × List Char)) :
    GoScrapeOutcome :=
  match phaseA with
  | .ok (html, finalURL) => .success html finalURL
  | .error _ =>
    match phaseB with
    | .ok (html, finalURL) => .success html finalURL
    | .error e =>
      if isCloudflareBlock e then .blocked hostname
      else .failed ("scraping failed: ".toList ++ e)

/-- Whether ScrapeSmart reaches the browser phase for a given phase-1
outcome. -/
def browserAttemptedGo (phaseA : Except (List Char) (List Char × List Char)) :
    Bool :=
  match phaseA with
  | .ok _ => false
  | .error _ => true

/- ## Alternate URL generation (internal/scraper/http.go) -/

/-- A parsed absolute URL as used by GenerateAlternateURLs: the fields
of net/url.URL that the function reads and writes. -/
structure GoURL where
  scheme : List Char
  hostname : List Char
  port : Option (List Char)
  path : List Char
  rawQuery : List Char

/-- net/url's Host field: hostname plus optional port. -/
def goURLHost (u : GoURL) : List Char :=
  u.hostname ++ (match u.port with | some p => ':' :: p | none => [])

/-- net/url's URL.String for URLs of the canonical shape produced and
consumed here (scheme and host present, no userinfo, no fragment, no
characters needing escaping). -/
def goURLString (u : GoURL) : List Char :=
  u.scheme ++ "://".toList ++ goURLHost u ++ u.path ++
    (if u.rawQuery = [] then [] else '?' :: u.rawQuery)

/-- Go strings.TrimSuffix: remove one trailing occurrence if present. -/
def goTrimSuffix (l sfx : List Char) : List Char :=
  if sfx.isSuffixOf l then l.take (l.length - sfx.length) else l

/-- The amp-path-prefixed alternate of GenerateAlternateURLs. -/
def altAmpPrefixedURL (u : GoURL) : List Char :=
  goURLString { u with path := "/amp".toList ++ u.path }

/-- The path rewrite of the amp-path-suffixed alternate: trim one
trailing slash, then append /amp. -/
def ampSuffixedPath (p : List Char) : List Char :=
  if "/".toList.isSuffixOf p then
    goTrimSuffix p "/".toList ++ "/amp".toList
  else p ++ "/amp".toList

/-- The amp-path-suffixed alternate of GenerateAlternateURLs. -/
def altAmpSuffixedURL (u : GoURL) : List Char :=
  goURLString { u with path := ampSuffixedPath u.path }

/-- The raw-query rewrite of the query alternate: the outputType=amp
parameter is appended unconditionally to the re-encoded query. -/
def ampQueryValue (q : List Char) : List Char :=
  if q ≠ [] then q ++ "&outputType=amp".toList
  else "outputType=amp".toList

/-- The outputType=amp query alternate of GenerateAlternateURLs. -/
def altAmpQueryURL (encodeQuery : List Char → List Char) (u : GoURL) :
    List Char :=
  goURLString { u with rawQuery := ampQueryValue (encodeQuery u.rawQuery) }

/-- The m.-hostname alternate of GenerateAlternateURLs (Host is set to
"m." plus Hostname(), which drops any port). -/
def altMobileURL (u : GoURL) : List Char :=
  goURLString { u with hostname := "m.".toList ++ u.hostname, port := none }

/-- GenerateAlternateURLs from internal/scraper/http.go.  The behaviour
of net/url's Query().Encode() (parse the raw query and re-encode it) is
a standard-library function, passed in as `encodeQuery`; on the empty
raw query it returns the empty string. -/
def GenerateAlternateURLs (encodeQuery : List Char → List Char) (u : GoURL) :
    List (List Char) :=
  (if !("/amp/".toList.isPrefixOf u.path) then [altAmpPrefixedURL u] else []) ++
    (if !("/amp".toList.isSuffixOf u.path) then [altAmpSuffixedURL u] else []) ++
    [altAmpQueryURL encodeQuery u] ++
    (if !("m.".toList.isPrefixOf u.hostname) then [altMobileURL u] else [])

deriving instance DecidableEq for Except

/- ## Regex helpers for the image pipeline (config.go patterns)

Each Go regexp used by internal/scraper/images.go is an explicit
pattern over ASCII literals, character classes and bounded repetition.
The matchers below implement exactly the leftmost-first search of Go's
regexp engine for those fixed patterns: starts are scanned left to
right, and for these patterns greedy repetition admits a unique viable
decomposition at each start (a shorter repetition always leaves a
character that the following literal cannot match), so backtracking is
forced. -/

/-- The character class \s of Go's regexp (Perl class, ASCII). -/
def reSpace (c : Char) : Bool :=
  c = ' ' ∨ c = '\t' ∨ c = '\n' ∨ c = '\x0C' ∨ c = '\r'

/-- A word character for the \b assertion of Go's regexp. -/
def isWordChar (c : Char) : Bool := c.isAlphanum ∨ c = '_'

/-- Numeric value of a run of decimal digit characters. -/
def digitsToNat (ds : List Char) : Nat :=
  ds.foldl (fun n c => 10 * n + (c.toNat - 48)) 0

/-- Go math.MaxInt64, the upper bound of strconv.Atoi on 64-bit. -/
def int64Max : Nat := 9223372036854775807

/-- Go strconv.Atoi: optional sign, non-empty digit run, 64-bit range
check (the negative bound is one larger in magnitude). -/
def atoiGo (l : List Char) : Option Int :=
  match l with
  | [] => none
  | '+' :: ds =>
    if ds ≠ [] ∧ ds.all Char.isDigit ∧ digitsToNat ds ≤ int64Max then
      some (digitsToNat ds)
    else none
  | '-' :: ds =>
    if ds ≠ [] ∧ ds.all Char.isDigit ∧ digitsToNat ds ≤ int64Max + 1 then
      some (-(digitsToNat ds : Int))
    else none
  | ds =>
    if ds.all Char.isDigit ∧ digitsToNat ds ≤ int64Max then
      some (digitsToNat ds)
    else none

/-- One attempt of the srcsetItem pattern (\S+)\s+(\d+)w at the current
position: a maximal non-space run, a space run, a maximal digit run,
then the literal w.  Returns the two capture groups. -/
def srcsetTryAt (l : List Char) : Option (List Char × List Char) :=
  let url := l.takeWhile (fun c => !reSpace c)
  if url = [] then none
  else
    let l1 := l.drop url.length
    let sp := l1.takeWhile reSpace
    if sp = [] then none
    else
      let l2 := l1.drop sp.length
      let ds := l2.takeWhile Char.isDigit
      if ds = [] then none
      else
        match l2.drop ds.length with
        | 'w' :: _ => some (url, ds)
        | _ => none

/-- Leftmost match of the srcsetItem pattern in a string. -/
def findSrcsetMatch : List Char → Option (List Char × List Char)
  | [] => none
  | c :: rest =>
    match srcsetTryAt (c :: rest) with
    | some m => some m
    | none => findSrcsetMatch rest

/-- Candidate (url, width) pairs parsed out of a srcset attribute by
pickFromSrcset in internal/scraper/images.go: split on commas, trim,
match the srcsetItem regex, convert the width with Atoi. -/
def srcsetCandidates (srcset : List Char) : List (List Char × Nat) :=
  ((srcset.splitOn ',').map goTrimSpace).filterMap (fun item =>
    match findSrcsetMatch item with
    | some (url, ds) =>
      if digitsToNat ds ≤ int64Max then some (url, digitsToNat ds) else none
    | none => none)

/-- Distance of a srcset width from the 1000-pixel target. -/
def wdiff (w : Nat) : Nat := ((w : Int) - 1000).natAbs

/-- The selection step of pickFromSrcset: keep the candidate whose
width is closest to 1000, breaking ties toward the larger width. -/
def pickBetter (best cand : List Char × Nat) : List Char × Nat :=
  if wdiff cand.2 < wdiff best.2 ∨
      (wdiff cand.2 = wdiff best.2 ∧ best.2 < cand.2) then cand
  else best

/-- pickFromSrcset from internal/scraper/images.go: parse the width
candidates and fold the selection over them; empty result when no entry
carries a width descriptor. -/
def pickFromSrcset (srcset : List Char) : List Char :=
  match srcsetCandidates srcset with
  | [] => []
  | c :: cs => (cs.foldl pickBetter c).1

/-- One attempt of (\d+(?:\.\d+)?)px\b after "width :" has been
consumed: a digit run, an optional fraction, the literal px, and a word
boundary.  Returns the integer digit run (Go converts the capture with
ParseFloat and truncates to int). -/
def pxTry (l : List Char) : Option (List Char) :=
  let ds := l.takeWhile Char.isDigit
  if ds = [] then none
  else
    let l1 := l.drop ds.length
    let l2 :=
      match l1 with
      | '.' :: l1a =>
        let fs := l1a.takeWhile Char.isDigit
        if fs = [] then none else some (l1a.drop fs.length)
      | _ => some l1
    match l2 with
    | some ('p' :: 'x' :: rest) =>
      match rest with
      | [] => some ds
      | c :: _ => if isWordChar c then none else some ds
    | _ => none

/-- One attempt of the widthStyle pattern
(?:^|;|\s)KEY\s*:\s*(\d+(?:\.\d+)?)px\b at a position right after the
boundary: the key literal, optional spaces, a colon, optional spaces,
then the pixel number. -/
def styleTryAt (key l : List Char) : Option (List Char) :=
  if key.isPrefixOf l then
    let l1 := (l.drop key.length)
    let l2 := l1.drop (l1.takeWhile reSpace).length
    match l2 with
    | ':' :: l3 => pxTry (l3.drop (l3.takeWhile reSpace).length)
    | _ => none
  else none

/-- Scan for the widthStyle / heightStyle pattern after a ; or white
space boundary (the start-of-string case is handled by the wrapper). -/
def findStyleNumAux (key : List Char) : List Char → Option (List Char)
  | [] => none
  | c :: rest =>
    if c = ';' ∨ reSpace c then
      match styleTryAt key rest with
      | some ds => some ds
      | none => findStyleNumAux key rest
    else findStyleNumAux key rest

/-- Leftmost match of the widthStyle / heightStyle pattern: first the
start-of-string alternative, then every boundary position. -/
def findStyleNum (key l : List Char) : Option (List Char) :=
  match styleTryAt key l with
  | some ds => some ds
  | none => findStyleNumAux key l

/-- One attempt of (\d{3,4})x(\d{3,4})(?:[^\d]|$) at a position where
the first group may start: both digit runs must have maximal length 3
or 4 (a longer run makes every greedy choice fail), joined by the
literal x; the trailing non-digit-or-end assertion is automatic for a
maximal run. -/
def dimsTryAt (l : List Char) : Option (Nat × Nat) :=
  let d1 := l.takeWhile Char.isDigit
  if d1.length = 3 ∨ d1.length = 4 then
    match l.drop d1.length with
    | 'x' :: l2 =>
      let d2 := l2.takeWhile Char.isDigit
      if d2.length = 3 ∨ d2.length = 4 then
        some (digitsToNat d1, digitsToNat d2)
      else none
    | _ => none
  else none

/-- Scan for the dimensionsFromUrl pattern at non-digit boundaries. -/
def findDimsAux : List Char → Option (Nat × Nat)
  | [] => none
  | c :: rest =>
    if !c.isDigit then
      match dimsTryAt rest with
      | some p => some p
      | none => findDimsAux rest
    else findDimsAux rest

/-- Leftmost match of (?:^|[^\d])(\d{3,4})x(\d{3,4})(?:[^\d]|$): first
the start-of-string alternative, then every non-digit boundary. -/
def findDims (l : List Char) : Option (Nat × Nat) :=
  match dimsTryAt l with
  | some p => some p
  | none => findDimsAux l

/-- The (\d{3,4})\b tail of the widthFromUrl / heightFromUrl patterns:
a maximal digit run of length 3 or 4 followed by a word boundary. -/
def numAfterKey (l : List Char) : Option (List Char) :=
  let ds := l.takeWhile Char.isDigit
  if ds.length = 3 ∨ ds.length = 4 then
    match l.drop ds.length with
    | [] => some ds
    | c :: _ => if isWordChar c then none else some ds
  else none

/-- One attempt of (?:w|width)=(\d{3,4})\b right after a ? or &
boundary; the two key alternatives have mutually exclusive prefixes. -/
def wqTry (keyShort keyLong l : List Char) : Option (List Char) :=
  if (keyShort ++ ['=']).isPrefixOf l then
    numAfterKey (l.drop (keyShort.length + 1))
  else if (keyLong ++ ['=']).isPrefixOf l then
    numAfterKey (l.drop (keyLong.length + 1))
  else none

/-- Leftmost match of the widthFromUrl / heightFromUrl patterns
scanning for the [?&] boundary. -/
def findWQ (keyShort keyLong : List Char) : List Char → Option (List Char)
  | [] => none
  | c :: rest =>
    if c = '?' ∨ c = '&' then
      match wqTry keyShort keyLong rest with
      | some ds => some ds
      | none => findWQ keyShort keyLong rest
    else findWQ keyShort keyLong rest

/-- Boundary accepted after an image extension: end of string, ? or #. -/
def extBoundary : List Char → Bool
  | [] => true
  | c :: _ => c = '?' ∨ c = '#'

/-- Try one extension alternative at a position right after a dot. -/
def tryExt (e : String) (rest : List Char) : Bool :=
  e.toList.isPrefixOf rest && extBoundary (rest.drop e.length)

/-- MatchString of the imageExt regex
\.(jpe?g|png|gif|webp|avif)(?:$|[?#]) from config.go: an unanchored
search, so the extension may occur anywhere in the URL. -/
def imageExtMatch : List Char → Bool
  | [] => false
  | '.' :: rest =>
    (tryExt "jpeg" rest || tryExt "jpg" rest || tryExt "png" rest ||
      tryExt "gif" rest || tryExt "webp" rest || tryExt "avif" rest) ||
      imageExtMatch rest
  | _ :: rest => imageExtMatch rest

/-- The literal alternatives of the case-insensitive badHint regex
(sprite|icon|favicon|logo|avatar|emoji|placeholder|pixel|tracker|ads?|adserver|promo|beacon). -/
def badHintWords : List (List Char) :=
  ["sprite".toList, "icon".toList, "favicon".toList, "logo".toList,
    "avatar".toList, "emoji".toList, "placeholder".toList, "pixel".toList,
    "tracker".toList, "ad".toList, "ads".toList, "adserver".toList,
    "promo".toList, "beacon".toList]

/-- MatchString of the (?i) badHint regex: some lowercase literal
alternative occurs in the lowercased input. -/
def badHintMatch (s : List Char) : Bool :=
  badHintWords.any (fun w => containsSub w (toLowerGo s))

/- ## Image candidates (internal/scraper/images.go) -/

/-- An image candidate (models.ImageCandidate): url, dimensions,
article scope, bad hint, source tag, plus the score and area fields
filled in by filterAndScoreCandidates. -/
structure Candidate where
  url : List Char
  width : Int
  height : Int
  inArticle : Bool
  badHint : Bool
  isOg : Bool
  score : ℚ := 0
  area : Int := 0

/-- Default image configuration (config.go DefaultImageConfig). -/
def minShortSide : Int := 300

/-- Default minimum pixel area (config.go DefaultImageConfig). -/
def minArea : Int := 140000

/-- Default aspect-ratio band (config.go DefaultImageConfig). -/
def minAspect : ℚ := 1 / 2

/-- Default aspect-ratio band (config.go DefaultImageConfig). -/
def maxAspect : ℚ := 26 / 10

/-- Default whitelisted aspect ratios (config.go DefaultImageConfig). -/
def ratioWhitelist : List ℚ :=
  [1333 / 1000, 15 / 10, 16 / 10, 1667 / 1000, 1777 / 1000, 185 / 100, 2]

/-- Default ratio tolerance (config.go DefaultImageConfig). -/
def ratioTol : ℚ := 9 / 100

/-- The fixed ad-size table of config.go (width, height pairs; the Go
map is keyed by the "WxH" string, which is injective on positive
dimensions). -/
def adSizes : List (Int × Int) :=
  [(728, 90), (970, 90), (970, 250), (468, 60), (320, 50), (300, 50),
    (300, 250), (336, 280), (300, 600), (160, 600), (120, 600),
    (250, 250), (200, 200), (180, 150), (234, 60), (120, 240), (88, 31)]

/-- hasGoodAspectRatio from internal/scraper/images.go (float64
arithmetic modelled exactly over ℚ). -/
def hasGoodAspectRatio (width height : Int) : Bool :=
  if width = 0 ∨ height = 0 then false
  else
    let aspect : ℚ := (width : ℚ) / (height : ℚ)
    decide (minAspect ≤ aspect ∧ aspect ≤ maxAspect) ||
      ratioWhitelist.any (fun ratio => decide (|aspect - ratio| ≤ ratioTol))

/-- isAdSize from internal/scraper/images.go. -/
def isAdSize (width height : Int) : Bool :=
  if width = 0 ∨ height = 0 then false
  else adSizes.contains (width, height)

/-- passesFilters from internal/scraper/images.go: with both
dimensions known, apply the size, area, aspect, ad-size and bad-hint
filters; otherwise only reject on a bad hint. -/
def passesFilters (c : Candidate) : Bool :=
  if 0 < c.width ∧ 0 < c.height then
    let shortSide := min c.width c.height
    let area := c.width * c.height
    if shortSide < minShortSide then false
    else if area < minArea then false
    else if !hasGoodAspectRatio c.width c.height then false
    else if isAdSize c.width c.height then false
    else if c.badHint ∧ ¬(400 ≤ shortSide ∧ 300000 ≤ area) then false
    else true
  else if c.badHint then false
  else true

/-- Fuel-driven digit-count loop of the log10 helper in
internal/scraper/images.go (divide by ten while at least ten); the fuel
starts at the argument, which bounds the iteration count. -/
def log10Aux : Nat → Nat → Nat
  | 0, _ => 0
  | fuel + 1, x => if 10 ≤ x then log10Aux fuel (x / 10) + 1 else 0

/-- The log10 helper of internal/scraper/images.go on a non-negative
rational: zero for non-positive input, otherwise the digit count of the
integer part (the float loop divides by ten). -/
def goLog10 (x : ℚ) : ℚ :=
  if x ≤ 0 then 0 else (log10Aux x.floor.toNat x.floor.toNat : ℚ)

/-- The float64 max helper of internal/scraper/images.go. -/
def goMaxQ (a b : ℚ) : ℚ := if a < b then b else a

/-- calculateScore from internal/scraper/images.go. -/
def calculateScore (c : Candidate) : ℚ :=
  let area : ℚ := ((c.width * c.height : Int) : ℚ)
  (if c.inArticle then 2 else 0) +
    (if c.isOg then 1 else 0) +
    (if 0 < c.width ∧ 0 < c.height ∧
        ratioWhitelist.any
          (fun ratio => decide (|(c.width : ℚ) / (c.height : ℚ) - ratio| ≤ ratioTol))
      then 1 else 0) +
    (if 0 < area then goLog10 (goMaxQ 1 area) else 0)

/-- filterAndScoreCandidates from internal/scraper/images.go. -/
def filterAndScoreCandidates (candidates : List Candidate) : List Candidate :=
  candidates.filterMap (fun c =>
    if passesFilters c then
      some { c with score := calculateScore c, area := c.width * c.height }
    else none)

/-- One inner pass of the bubble sort in sortCandidates, carrying the
element currently being bubbled. -/
def bubbleCarry (cur : Candidate) : List Candidate → List Candidate
  | [] => [cur]
  | b :: rest =>
    if cur.score < b.score ∨ (cur.score = b.score ∧ cur.area < b.area) then
      b :: bubbleCarry cur rest
    else cur :: bubbleCarry b rest

/-- One full adjacent-swap pass over the list. -/
def bubblePass : List Candidate → List Candidate
  | [] => []
  | a :: rest => bubbleCarry a rest

/-- Iterated bubble passes. -/
def bubblePassN : Nat → List Candidate → List Candidate
  | 0, l => l
  | n + 1, l => bubblePassN n (bubblePass l)

/-- sortCandidates from internal/scraper/images.go: n-1 bubble passes
by (score desc, area desc).  The Go inner loop shortens by one each
pass; the extra comparisons of a full pass are no-ops on the already
settled tail, so full passes compute the same list. -/
def sortCandidates (l : List Candidate) : List Candidate :=
  bubblePassN (l.length - 1) l

/-- getTopImages recursion from internal/scraper/images.go: the seen
set always equals the set of collected URLs, so the accumulator doubles
as the seen set; collection stops as soon as the limit is reached. -/
def getTopAux (limit : Nat) : List Candidate → List (List Char) → List (List Char)
  | [], acc => acc.reverse
  | c :: rest, acc =>
    if c.url ∈ acc then getTopAux limit rest acc
    else
      let acc2 := c.url :: acc
      if limit ≤ acc2.length then acc2.reverse
      else getTopAux limit rest acc2

/-- getTopImages from internal/scraper/images.go. -/
def getTopImages (candidates : List Candidate) (limit : Nat) : List (List Char) :=
  getTopAux limit candidates []

/-- parseDimensionsFromURL from internal/scraper/images.go: the WxH
pattern first, then the separate w=/width= and h=/height= query
parameters. -/
def parseDimensionsFromURL (url : List Char) : Int × Int :=
  match findDims url with
  | some (w, h) => ((w : Int), (h : Int))
  | none =>
    let w : Int :=
      match findWQ "w".toList "width".toList url with
      | some ds => (digitsToNat ds : Int)
      | none => 0
    let h : Int :=
      match findWQ "h".toList "height".toList url with
      | some ds => (digitsToNat ds : Int)
      | none => 0
    (w, h)

/-- extractOgImage from internal/scraper/images.go, from the scanned
og:image meta data (URL text and the og:image:width / og:image:height
values, zero when absent or non-numeric): resolve, check the image
extension, backfill missing dimensions from the URL. -/
def extractOgImage (resolve : List Char → List Char → Option (List Char))
    (baseURL ogURL : List Char) (w0 h0 : Int) : Option Candidate :=
  if ogURL = [] then none
  else
    match resolve ogURL baseURL with
    | none => none
    | some absURL =>
      if !imageExtMatch absURL then none
      else
        let dims :=
          if w0 = 0 ∨ h0 = 0 then
            let p := parseDimensionsFromURL absURL
            ((if w0 = 0 then p.1 else w0), (if h0 = 0 then p.2 else h0))
          else (w0, h0)
        some { url := absURL, width := dims.1, height := dims.2,
               inArticle := true, badHint := false, isOg := true }

/-- The attribute data of one img element as goquery exposes it to
extractImgTag: the four source attributes, the srcset, the width,
height and style attributes, whether an article/main ancestor exists,
and the inner HTML used by hasBadHint. -/
structure ImgTag where
  src : Option (List Char) := none
  dataSrc : Option (List Char) := none
  dataOriginal : Option (List Char) := none
  dataLazySrc : Option (List Char) := none
  srcset : Option (List Char) := none
  widthAttr : Option (List Char) := none
  heightAttr : Option (List Char) := none
  styleAttr : Option (List Char) := none
  inArticle : Bool := false
  innerHtml : List Char := []

/-- The src-selection chain at the top of extractImgTag: the first
present attribute among src, data-src, data-original, data-lazy-src
(an attribute present with an empty value still wins the chain). -/
def pickSrcAttr (t : ImgTag) : List Char :=
  match t.src with
  | some v => v
  | none =>
    match t.dataSrc with
    | some v => v
    | none =>
      match t.dataOriginal with
      | some v => v
      | none =>
        match t.dataLazySrc with
        | some v => v
        | none => []

/-- The source string extractImgTag works with: the attribute chain,
falling back to pickFromSrcset only when the chain yields the empty
string. -/
def imgSrcOf (t : ImgTag) : List Char :=
  let s0 := pickSrcAttr t
  if s0 = [] then
    match t.srcset with
    | some ss => pickFromSrcset ss
    | none => []
  else s0

/-- extractDimensions from internal/scraper/images.go: the width and
height attributes through Atoi on the trimmed value, then the style
attribute patterns, which overwrite the attribute values when they
match. -/
def extractDimensions (t : ImgTag) : Int × Int :=
  let wAttr : Int :=
    match t.widthAttr with
    | some a => match atoiGo (goTrimSpace a) with | some n => n | none => 0
    | none => 0
  let hAttr : Int :=
    match t.heightAttr with
    | some a => match atoiGo (goTrimSpace a) with | some n => n | none => 0
    | none => 0
  match t.styleAttr with
  | some st =>
    let w :=
      match findStyleNum "width".toList st with
      | some ds => (digitsToNat ds : Int)
      | none => wAttr
    let h :=
      match findStyleNum "height".toList st with
      | some ds => (digitsToNat ds : Int)
      | none => hAttr
    (w, h)
  | none => (wAttr, hAttr)

/-- hasBadHint from internal/scraper/images.go: the badHint regex on
the absolute URL or on the inner HTML of the img element. -/
def hasBadHint (t : ImgTag) (url : List Char) : Bool :=
  badHintMatch url || badHintMatch t.innerHtml

/-- extractImgTag from internal/scraper/images.go: select the source,
resolve it against the base URL, require the image extension, extract
dimensions with URL backfill, record article scope and bad hints. -/
def extractImgTag (resolve : List Char → List Char → Option (List Char))
    (baseURL : List Char) (t : ImgTag) : Option Candidate :=
  if imgSrcOf t = [] then none
  else
    match resolve (imgSrcOf t) baseURL with
    | none => none
    | some absURL =>
      if !imageExtMatch absURL then none
      else
        let d0 := extractDimensions t
        let dims :=
          if d0.1 = 0 ∨ d0.2 = 0 then
            let p := parseDimensionsFromURL absURL
            ((if d0.1 = 0 then p.1 else d0.1), (if d0.2 = 0 then p.2 else d0.2))
          else d0
        some { url := absURL, width := dims.1, height := dims.2,
               inArticle := t.inArticle, badHint := hasBadHint t absURL,
               isOg := false }

/-- ExtractImagesFromHTML from internal/scraper/images.go, at the
embedding boundary where goquery has already produced the og:image
meta data and the list of img elements (the two discovery goroutines
deliver their slices through a channel; the properties proved below
hold for every interleaving because they hold for every candidate
list): filter and score, bubble-sort, return the top three unique
URLs. -/
def ExtractImagesFromHTML (resolve : List Char → List Char → Option (List Char))
    (baseURL ogURL : List Char) (ogW ogH : Int) (tags : List ImgTag) :
    List (List Char) :=
  let ogCand :=
    match extractOgImage resolve baseURL ogURL ogW ogH with
    | some c => [c]
    | none => []
  let imgCands := tags.filterMap (extractImgTag resolve baseURL)
  getTopImages (sortCandidates (filterAndScoreCandidates (ogCand ++ imgCands))) 3

/-- The allowed image extensions named by the specification. -/
def specImageExts : List String :=
  [".jpg", ".jpeg", ".png", ".gif", ".webp", ".avif"]

/-- Written from the specification text, for comparison with the code:
the URL path (everything before the first ? or #) ends in one of the
allowed image extensions. -/
def specPathEndsInImageExt (url : List Char) : Bool :=
  specImageExts.any
    (fun e => e.toList.isSuffixOf (url.takeWhile (fun c => c ≠ '?' ∧ c ≠ '#')))

/- ## Claims about the text pipeline -/

/-- Claim C2: the specification asserts that CleanWhitespace output
never contains a triple newline or a double space.  The single
ReplaceAll pass does not collapse longer runs: a run of four newlines
leaves a triple newline, a run of three spaces leaves a double space.
This theorem evaluates the code at both failing inputs. -/
theorem C2_cleanWhitespace_single_pass_bug :
    CleanWhitespace "a\n\n\n\nb".toList = "a\n\n\nb".toList ∧
    containsSub "\n\n\n".toList (CleanWhitespace "a\n\n\n\nb".toList) = true ∧
    CleanWhitespace "c   d".toList = "c  d".toList ∧
    containsSub "  ".toList (CleanWhitespace "c   d".toList) = true := by
  decide

/-- Claim C7: the specification requires case-insensitive containment
to hold exactly when the lowercased pattern occurs in the lowercased
text, including equal-length inputs differing only in case.  The
contains helper of internal/scraper/scraper.go returns false on such
inputs (the substring branch is only reached for strictly longer
text), while the ContainsAny helper of the text-processing file
implements the specified behaviour.  Evaluation at the failing
input. -/
theorem C7_contains_equal_length_case_bug :
    goContains "HTTP 403".toList "http 403".toList = false ∧
    containsSub (toLowerGo "http 403".toList) (toLowerGo "HTTP 403".toList) = true ∧
    ContainsAny "HTTP 403".toList ["http 403".toList] = true ∧
    goContains "xHTTP 403".toList "http 403".toList = true := by
  decide

/-- Claim C9, counterexample: CleanTextContent drops short lines before
whitespace normalization, but normalization can shorten a kept line:
a 22-character line with double spaces survives the filter and is then
collapsed to 19 characters, so the output does contain a non-empty
line of at most 20 characters. -/
theorem C9_short_line_reappears :
    CleanTextContent "aaaa  aaaa  aaaa  aaaa".toList =
      "aaaa aaaa aaaa aaaa".toList ∧
    (CleanTextContent "aaaa  aaaa  aaaa  aaaa".toList).length = 19 ∧
    ((CleanTextContent "aaaa  aaaa  aaaa  aaaa".toList).splitOn '\n').any
      (fun line => decide (line ≠ [] ∧ line.length ≤ 20)) = true := by
  decide

/-- Claim C9, amended: CleanTextContent removes every line whose
trimmed length is between 1 and 20 before whitespace normalization —
each line surviving the filter is empty or longer than 20 characters —
and the final output is exactly the whitespace normalization of the
re-joined surviving lines (which may shorten them again). -/
theorem C9_filter_before_normalization (text : List Char) :
    (∀ line ∈ filteredLines text, line = [] ∨ 20 < line.length) ∧
    (text ≠ [] → CleanTextContent text =
      CleanWhitespace (List.intercalate ['\n'] (filteredLines text))) := by
  constructor
  · intro line hl
    have h := (List.mem_filter.mp hl).2
    have h2 := of_decide_eq_true h
    rcases h2 with h2 | h2
    · exact Or.inl (List.length_eq_zero.mp h2)
    · exact Or.inr h2
  · intro h
    simp [CleanTextContent, h]

/-- Witness for the amended Claim C9 at a concrete input: the long
line survives the filter (and is longer than 20 characters), the short
line is gone, and the if-guard equation holds. -/
theorem C9_filter_witness :
    ("This line is long enough to keep".toList = [] ∨
      20 < "This line is long enough to keep".toList.length) ∧
    CleanTextContent "This line is long enough to keep\nshort".toList =
      CleanWhitespace (List.intercalate ['\n']
        (filteredLines "This line is long enough to keep\nshort".toList)) := by
  constructor
  · exact (C9_filter_before_normalization
      "This line is long enough to keep\nshort".toList).1 _ (by decide)
  · exact (C9_filter_before_normalization
      "This line is long enough to keep\nshort".toList).2 (by decide)

/- ## Claims about the image filter -/

/-- Claim C10: a candidate with exactly one known dimension skips the
size, area, aspect and ad-size filters entirely; it is accepted exactly
when its bad-hint flag is unset, just as when both dimensions are
unknown. -/
theorem C10_single_dimension_skips_filters (c : Candidate)
    (h : (0 < c.width ∧ c.height = 0) ∨ (c.width = 0 ∧ 0 < c.height)) :
    passesFilters c = !c.badHint ∧
    passesFilters c = passesFilters { c with width := 0, height := 0 } := by
  have hcond : ¬(0 < c.width ∧ 0 < c.height) := by
    rcases h with ⟨h1, h2⟩ | ⟨h1, h2⟩ <;> omega
  have h1 : passesFilters c = !c.badHint := by
    unfold passesFilters
    rw [if_neg hcond]
    cases hb : c.badHint <;> simp
  refine ⟨h1, ?_⟩
  have h2 : passesFilters { c with width := 0, height := 0 } = !c.badHint := by
    unfold passesFilters
    rw [if_neg (by simp)]
    cases hb : c.badHint <;> simp [hb]
  rw [h1, h2]

/-- Witness for Claim C10: a 500-wide candidate with unknown height
and no bad hint is accepted; with a bad hint it is rejected. -/
theorem C10_single_dimension_witness :
    passesFilters
      { url := [], width := 500, height := 0, inArticle := false,
        badHint := false, isOg := false } = true ∧
    passesFilters
      { url := [], width := 0, height := 500, inArticle := false,
        badHint := true, isOg := false } = false := by
  have h1 := C10_single_dimension_skips_filters
    { url := [], width := 500, height := 0, inArticle := false,
      badHint := false, isOg := false } (Or.inl (by constructor <;> decide))
  have h2 := C10_single_dimension_skips_filters
    { url := [], width := 0, height := 500, inArticle := false,
      badHint := true, isOg := false } (Or.inr (by constructor <;> decide))
  exact ⟨h1.1.trans (by decide), h2.1.trans (by decide)⟩

/- ## Claims about the orchestrator -/

/-- Claim C3, counterexample: an oversize-body failure of the fetch
phase does not end the lambda orchestrator — the browser phase runs and
its result is returned, contradicting the claim that OversizeHTML is
fatal immediately and that only the listed failure kinds reach the
browser. -/
theorem C3_oversize_reaches_browser :
    browserAttemptedJs
      (Except.error "HTML too large".toList : Except (List Char) Unit) = true ∧
    scrapeSmartJs (Except.error "HTML too large".toList)
      (Except.ok ()) = Except.ok () := by
  exact ⟨rfl, rfl⟩

/-- Claim C3, amended: both orchestrators attempt the browser phase
after every fetch-phase failure, whatever its kind (OversizeHTML
included), and skip it exactly when the fetch phase succeeded; the Go
orchestrator then classifies a double failure through its Cloudflare
check on the final error message. -/
theorem C3_browser_after_every_failure {α : Type}
    (phaseB : Except (List Char) α) (e : List Char) (a : α)
    (host html finalURL : List Char)
    (pb : Except (List Char) (List Char × List Char)) :
    scrapeSmartJs (.error e) phaseB = phaseB ∧
    browserAttemptedJs (.error e : Except (List Char) α) = true ∧
    scrapeSmartJs (.ok a) phaseB = .ok a ∧
    browserAttemptedJs (.ok a : Except (List Char) α) = false ∧
    browserAttemptedGo (.error e) = true ∧
    browserAttemptedGo (.ok (html, finalURL)) = false ∧
    goScrapeSmart host (.ok (html, finalURL)) pb = .success html finalURL ∧
    (∀ e2, pb = .error e2 → goScrapeSmart host (.error e) pb =
      (if isCloudflareBlock e2 then .blocked host
        else .failed ("scraping failed: ".toList ++ e2))) := by
  refine ⟨rfl, rfl, rfl, rfl, rfl, rfl, rfl, ?_⟩
  intro e2 he2
  subst he2
  rfl

/-- Witness for the amended Claim C3 at concrete outcomes: an
oversize-body failure followed by a successful browser phase returns
the browser result, and a double failure with a Cloudflare-looking
final error is classified as blocked. -/
theorem C3_browser_witness :
    scrapeSmartJs (Except.error "HTML too large".toList)
      (Except.ok "html".toList) = Except.ok "html".toList ∧
    goScrapeSmart "x.com".toList (.error "HTML too large".toList)
      (.error "CF_BLOCKED".toList) =
      (if isCloudflareBlock "CF_BLOCKED".toList then .blocked "x.com".toList
        else .failed ("scraping failed: ".toList ++ "CF_BLOCKED".toList)) := by
  have h := C3_browser_after_every_failure
    (Except.ok "html".toList) "HTML too large".toList "html".toList
    "x.com".toList [] [] (.error "CF_BLOCKED".toList)
  exact ⟨h.1, h.2.2.2.2.2.2.2 "CF_BLOCKED".toList rfl⟩

/- ## Claims about alternate URL generation -/

/-- Claim C6, counterexample: on a URL with an empty path the amp
prefix and amp suffix alternates coincide, so the generated list
contains a duplicate; and applying the generator to its own first
alternate of a /p path produces a URL (/amp/p/amp) that the first
application never produced, so re-application does not reproduce the
same set.  The query encoder is instantiated with the identity, which
agrees with net/url's Query().Encode() on the empty raw queries used
here. -/
theorem C6_duplicate_and_new_url_on_reapplication :
    ¬ (GenerateAlternateURLs id
        ⟨"https".toList, "x.com".toList, none, [], []⟩).Nodup ∧
    goURLString ⟨"https".toList, "x.com".toList, none, "/amp/p".toList, []⟩ ∈
      GenerateAlternateURLs id
        ⟨"https".toList, "x.com".toList, none, "/p".toList, []⟩ ∧
    "https://x.com/amp/p/amp".toList ∈
      GenerateAlternateURLs id
        ⟨"https".toList, "x.com".toList, none, "/amp/p".toList, []⟩ ∧
    "https://x.com/amp/p/amp".toList ∉
      GenerateAlternateURLs id
        ⟨"https".toList, "x.com".toList, none, "/p".toList, []⟩ := by
  decide

/-- Claim C6, amended: each application of the generator is
deterministic and returns at most four alternates, always an ordered
sublist of the four candidate URLs in generation order (amp path
prefix, amp path suffix, outputType=amp query, m. hostname); the
output may contain duplicates and the generator is not idempotent
under re-application. -/
theorem C6_alternates_ordered_and_bounded
    (encodeQuery : List Char → List Char) (u : GoURL) :
    List.Sublist (GenerateAlternateURLs encodeQuery u)
      [altAmpPrefixedURL u, altAmpSuffixedURL u,
        altAmpQueryURL encodeQuery u, altMobileURL u] ∧
    (GenerateAlternateURLs encodeQuery u).length ≤ 4 := by
  have hp : List.Sublist
      (if !("/amp/".toList.isPrefixOf u.path) then [altAmpPrefixedURL u] else [])
      [altAmpPrefixedURL u] := by
    split <;> simp
  have hs : List.Sublist
      (if !("/amp".toList.isSuffixOf u.path) then [altAmpSuffixedURL u] else [])
      [altAmpSuffixedURL u] := by
    split <;> simp
  have hq : List.Sublist [altAmpQueryURL encodeQuery u]
      [altAmpQueryURL encodeQuery u] := List.Sublist.refl _
  have hm : List.Sublist
      (if !("m.".toList.isPrefixOf u.hostname) then [altMobileURL u] else [])
      [altMobileURL u] := by
    split <;> simp
  have hsub : List.Sublist (GenerateAlternateURLs encodeQuery u)
      [altAmpPrefixedURL u, altAmpSuffixedURL u,
        altAmpQueryURL encodeQuery u, altMobileURL u] := by
    simp only [GenerateAlternateURLs]
    exact ((hp.append hs).append hq).append hm
  refine ⟨hsub, ?_⟩
  have := hsub.length_le
  simpa using this

/- ## Claims about fetching -/

/-- The streaming loop errors whenever the chunk lengths exceed the
cap, for any starting total not already above the cap. -/
lemma jsReadChunks_oversize (cap : Nat) :
    ∀ (chunks : List (List Char)) (total : Nat), total ≤ cap →
      cap < total + (chunks.map List.length).sum →
      jsReadChunks cap total chunks = .error "HTML too large".toList := by
  intro chunks
  induction chunks with
  | nil =>
    intro total h1 h2
    exfalso
    simp at h2
    omega
  | cons ch rest ih =>
    intro total h1 h2
    simp only [jsReadChunks]
    by_cases hc : cap < total + ch.length
    · rw [if_pos hc]
    · rw [if_neg hc, ih (total + ch.length) (by omega)
        (by simp at h2; omega)]

/-- Claim C4: the Go fetcher reads the body through io.LimitReader and
returns the truncated prefix as a success when the body exceeds the
6 MB cap — it never reports an oversize error — whereas the lambda
fetchers throw "HTML too large" in exactly that situation. -/
theorem C4_go_truncates_oversize_body :
    (∀ (oracle : Nat → Option GoResponse) (r : GoResponse),
      oracle 0 = some r → r.status < 400 →
      containsSub "text/html".toList (toLowerGo r.contentType) = true →
      goSizeLimitBytes < r.body.length →
      (goFetchHTML oracle 0).2 = .ok (r.body.take goSizeLimitBytes) ∧
      r.body.take goSizeLimitBytes ≠ r.body) ∧
    (∀ (cap : Nat) (chunks : List (List Char)),
      cap < (chunks.map List.length).sum →
      jsReadChunks cap 0 chunks = .error "HTML too large".toList) := by
  constructor
  · intro oracle r h0 h400 hct hlen
    have he : goFetchAux oracle (2 + 1) 0 = ([], .ok (r.body.take goSizeLimitBytes)) := by
      simp only [goFetchAux, h0]
      rw [if_neg (by omega), if_neg (by omega), if_neg (by simpa using hct)]
    constructor
    · unfold goFetchHTML
      rw [he]
    · intro heq
      have hl := congrArg List.length heq
      simp [List.length_take] at hl
      omega
  · intro cap chunks h
    exact jsReadChunks_oversize cap chunks 0 (by omega) (by omega)

/-- Witness for Claim C4 at the failing input: a 200 text/html response
whose body is 6,000,001 bytes is truncated to 6,000,000 bytes and
returned as a success by the Go fetcher, while the lambda streaming
loop rejects the same body. -/
theorem C4_oversize_witness :
    (goFetchHTML (fun _ => some ⟨200, "text/html".toList,
        List.replicate 6000001 'a'⟩) 0).2 =
      .ok (List.replicate 6000000 'a') ∧
    jsReadChunks goSizeLimitBytes 0 [List.replicate 6000001 'a'] =
      .error "HTML too large".toList := by
  have h := C4_go_truncates_oversize_body
  constructor
  · have h1 := h.1 (fun _ => some ⟨200, "text/html".toList, List.replicate 6000001 'a'⟩)
      ⟨200, "text/html".toList, List.replicate 6000001 'a'⟩ rfl (by decide) (by decide)
      (by rw [List.length_replicate]; decide)
    rw [h1.1, List.take_replicate]
    have hmin : goSizeLimitBytes ⊓ 6000001 = 6000000 := by decide
    rw [hmin]
  · exact h.2 goSizeLimitBytes [List.replicate 6000001 'a']
      (by simp only [List.map_cons, List.map_nil, List.length_replicate,
        List.sum_cons, List.sum_nil]; decide)

/-- The backoff sleep before retry n+1, as computed by
retryWithBackoff: 1000ms doubled per retry, capped at 5000ms. -/
def backoffDelay (n : Nat) : Nat := min (1000 * 2 ^ n) 5000

/-- Trace invariant of the fetch/retry recursion: starting at any
retryCount, the recorded sleeps are exactly the backoff delays of the
consecutive retry counts, there are at most MaxRetries - retryCount of
them, and every sleep is preceded by a response with status at least
500 at the corresponding attempt. -/
lemma goFetchAux_retry_trace (oracle : Nat → Option GoResponse) :
    ∀ (fuel rc : Nat),
      (goFetchAux oracle fuel rc).1.length ≤ goMaxRetries - rc ∧
      (goFetchAux oracle fuel rc).1 =
        (List.range' rc (goFetchAux oracle fuel rc).1.length 1).map backoffDelay ∧
      (∀ i, rc ≤ i → i < rc + (goFetchAux oracle fuel rc).1.length →
        ∃ r, oracle i = some r ∧ 500 ≤ r.status) := by
  intro fuel
  induction fuel with
  | zero =>
    intro rc
    refine ⟨by simp [goFetchAux], by simp [goFetchAux], ?_⟩
    intro i h1 h2
    simp [goFetchAux] at h2
    omega
  | succ fuel ih =>
    intro rc
    cases h0 : oracle rc with
    | none =>
      have he : goFetchAux oracle (fuel + 1) rc =
          ([], .error "request failed".toList) := by
        simp [goFetchAux, h0]
      refine ⟨by simp [he], by simp [he], ?_⟩
      intro i h1 h2
      rw [he] at h2
      simp at h2
      omega
    | some r =>
      by_cases h5 : 500 ≤ r.status
      · by_cases hmax : goMaxRetries ≤ rc
        · have he : goFetchAux oracle (fuel + 1) rc =
              ([], .error "max retries exceeded".toList) := by
            simp [goFetchAux, h0, h5, hmax]
          refine ⟨by simp [he], by simp [he], ?_⟩
          intro i h1 h2
          rw [he] at h2
          simp at h2
          omega
        · have he : goFetchAux oracle (fuel + 1) rc =
              (backoffDelay rc :: (goFetchAux oracle fuel (rc + 1)).1,
                (goFetchAux oracle fuel (rc + 1)).2) := by
            simp [goFetchAux, h0, h5, hmax, backoffDelay]
          obtain ⟨ih1, ih2, ih3⟩ := ih (rc + 1)
          refine ⟨?_, ?_, ?_⟩
          · rw [he]
            simp only [List.length_cons]
            unfold goMaxRetries at hmax ih1 ⊢
            omega
          · rw [he]
            simp only [List.length_cons, List.range'_succ, List.map_cons]
            exact congrArg (backoffDelay rc :: ·) ih2
          · intro i hi1 hi2
            rw [he] at hi2
            simp only [List.length_cons] at hi2
            by_cases hieq : i = rc
            · exact ⟨r, by rw [hieq, h0], h5⟩
            · exact ih3 i (by omega) (by omega)
      · have he : (goFetchAux oracle (fuel + 1) rc).1 = [] := by
          simp only [goFetchAux, h0]
          rw [if_neg h5]
          split
          · rfl
          · split
            · rfl
            · rfl
        refine ⟨by simp [he], by simp [he], ?_⟩
        intro i h1 h2
        rw [he] at h2
        simp at h2
        omega

/-- Claim C5: the Go fetcher retries only on responses with status at
least 500, sleeping min(1000·2^n, 5000) milliseconds before retry n+1,
and performs at most two retries; a first response that is a transport
error or has a status in [400, 500) fails immediately with no sleep
and no retry. -/
theorem C5_retry_policy (oracle : Nat → Option GoResponse) :
    (goFetchHTML oracle 0).1.length ≤ 2 ∧
    (goFetchHTML oracle 0).1 =
      (List.range (goFetchHTML oracle 0).1.length).map backoffDelay ∧
    (∀ i, i < (goFetchHTML oracle 0).1.length →
      ∃ r, oracle i = some r ∧ 500 ≤ r.status) ∧
    (oracle 0 = none →
      goFetchHTML oracle 0 = ([], .error "request failed".toList)) ∧
    (∀ r, oracle 0 = some r → 400 ≤ r.status → r.status < 500 →
      goFetchHTML oracle 0 =
        ([], .error (("HTTP " ++ toString r.status).toList))) := by
  obtain ⟨h1, h2, h3⟩ := goFetchAux_retry_trace oracle (2 + 1) 0
  refine ⟨?_, ?_, ?_, ?_, ?_⟩
  · unfold goFetchHTML
    simpa [goMaxRetries] using h1
  · unfold goFetchHTML
    rw [List.range_eq_range']
    exact h2
  · intro i hi
    exact h3 i (by omega) (by unfold goFetchHTML at hi; omega)
  · intro h0
    unfold goFetchHTML
    simp [goFetchAux, h0]
  · intro r h0 h400 h500
    unfold goFetchHTML
    simp only [goFetchAux, h0]
    rw [if_neg (by omega), if_pos h400]

/-- Witness for Claim C5: with every attempt answering 503 the fetcher
sleeps 1000ms then 2000ms and gives up after two retries, and the
attempt before the first sleep did return a 5xx; a 404 first response
fails immediately with no sleeps. -/
theorem C5_retry_witness :
    (∃ r, (fun _ => some (⟨503, "text/html".toList, []⟩ : GoResponse)) 0 =
        some r ∧ 500 ≤ r.status) ∧
    goFetchHTML (fun _ => some ⟨503, "text/html".toList, []⟩) 0 =
      ([1000, 2000], .error "max retries exceeded".toList) ∧
    goFetchHTML (fun _ => some ⟨404, "text/html".toList, []⟩) 0 =
      ([], .error (("HTTP " ++ toString 404).toList)) := by
  refine ⟨?_, by decide, ?_⟩
  · exact (C5_retry_policy (fun _ => some ⟨503, "text/html".toList, []⟩)).2.2.1
      0 (by decide)
  · exact (C5_retry_policy (fun _ => some ⟨404, "text/html".toList, []⟩)).2.2.2.2
      ⟨404, "text/html".toList, []⟩ rfl (by decide) (by decide)

/- ## Claims about srcset selection -/

/-- The selection preorder realised by pickFromSrcset: closer to 1000,
ties broken toward the larger width. -/
def pickLe (p c : List Char × Nat) : Prop :=
  wdiff p.2 < wdiff c.2 ∨ (wdiff p.2 = wdiff c.2 ∧ c.2 ≤ p.2)

lemma pickLe_refl (p : List Char × Nat) : pickLe p p :=
  Or.inr ⟨rfl, Nat.le_refl _⟩

lemma pickLe_trans {a b c : List Char × Nat} (h1 : pickLe a b)
    (h2 : pickLe b c) : pickLe a c := by
  unfold pickLe at h1 h2 ⊢
  omega

lemma pickBetter_le_left (b c : List Char × Nat) :
    pickLe (pickBetter b c) b := by
  unfold pickBetter
  split
  · unfold pickLe
    omega
  · exact pickLe_refl b

lemma pickBetter_le_right (b c : List Char × Nat) :
    pickLe (pickBetter b c) c := by
  unfold pickBetter
  split
  · exact pickLe_refl c
  · unfold pickLe
    omega

lemma pickBetter_mem (b c : List Char × Nat) :
    pickBetter b c = b ∨ pickBetter b c = c := by
  unfold pickBetter
  split
  · exact Or.inr rfl
  · exact Or.inl rfl

/-- The fold inside pickFromSrcset computes a minimum of the selection
preorder that is one of the folded elements. -/
lemma foldl_pickBetter_spec :
    ∀ (l : List (List Char × Nat)) (b : List Char × Nat),
      l.foldl pickBetter b ∈ b :: l ∧
      ∀ c ∈ b :: l, pickLe (l.foldl pickBetter b) c := by
  intro l
  induction l with
  | nil =>
    intro b
    refine ⟨List.mem_singleton.mpr rfl, ?_⟩
    intro c hc
    rw [List.mem_singleton.mp hc]
    exact pickLe_refl b
  | cons hd tl ih =>
    intro b
    rw [List.foldl_cons]
    obtain ⟨ihmem, ihle⟩ := ih (pickBetter b hd)
    constructor
    · rcases List.mem_cons.mp ihmem with h | h
      · rcases pickBetter_mem b hd with hb | hb
        · rw [h, hb]
          exact List.mem_cons_self _ _
        · rw [h, hb]
          exact List.mem_cons_of_mem _ (List.mem_cons_self _ _)
      · exact List.mem_cons_of_mem _ (List.mem_cons_of_mem _ h)
    · intro x hx
      rcases List.mem_cons.mp hx with h | hx2
      · rw [h]
        exact pickLe_trans (ihle _ (List.mem_cons_self _ _))
          (pickBetter_le_left b hd)
      · rcases List.mem_cons.mp hx2 with h | hx3
        · rw [h]
          exact pickLe_trans (ihle _ (List.mem_cons_self _ _))
            (pickBetter_le_right b hd)
        · exact ihle _ (List.mem_cons_of_mem _ hx3)

/-- Claim C8, counterexample: a srcset whose only entry carries a 2x
density descriptor yields no parsed width candidate, and pickFromSrcset
returns the empty string rather than the entry a.jpg that the claim
requires (there is no density fallback and no last-entry fallback in
the code). -/
theorem C8_density_srcset_selects_nothing :
    srcsetCandidates "a.jpg 2x".toList = [] ∧
    pickFromSrcset "a.jpg 2x".toList = [] ∧
    pickFromSrcset "a.jpg 2x".toList ≠ "a.jpg".toList ∧
    pickFromSrcset "a.jpg, b.jpg".toList ≠ "b.jpg".toList := by
  decide

/-- Claim C8, amended: if some entries carry width descriptors,
pickFromSrcset returns the URL of a parsed candidate whose width is
closest to 1000, ties broken toward the larger width; otherwise
(density-only or descriptor-free srcsets included) it returns the
empty string. -/
theorem C8_width_descriptor_selection (srcset : List Char) :
    (srcsetCandidates srcset = [] → pickFromSrcset srcset = []) ∧
    (srcsetCandidates srcset ≠ [] →
      ∃ p ∈ srcsetCandidates srcset, pickFromSrcset srcset = p.1 ∧
        ∀ c ∈ srcsetCandidates srcset, pickLe p c) := by
  constructor
  · intro h
    unfold pickFromSrcset
    rw [h]
  · intro h
    cases hc : srcsetCandidates srcset with
    | nil => exact absurd hc h
    | cons c0 cs =>
      obtain ⟨hmem, hle⟩ := foldl_pickBetter_spec cs c0
      refine ⟨cs.foldl pickBetter c0, ?_, ?_, ?_⟩
      · exact hmem
      · unfold pickFromSrcset
        rw [hc]
      · intro c hcmem
        exact hle c hcmem

/-- Witness for the amended Claim C8: on a srcset with 500w and 1200w
entries the parsed candidates are non-empty and the 1200w entry (200
from the 1000 target, against 500 at distance 500) is selected. -/
theorem C8_width_selection_witness :
    ∃ p ∈ srcsetCandidates "a.jpg 500w, b.jpg 1200w".toList,
      pickFromSrcset "a.jpg 500w, b.jpg 1200w".toList = p.1 ∧
      ∀ c ∈ srcsetCandidates "a.jpg 500w, b.jpg 1200w".toList, pickLe p c :=
  (C8_width_descriptor_selection "a.jpg 500w, b.jpg 1200w".toList).2 (by decide)

/- ## Claims about the image selector output -/

lemma bubbleCarry_perm : ∀ (l : List Candidate) (cur : Candidate),
    (bubbleCarry cur l).Perm (cur :: l) := by
  intro l
  induction l with
  | nil =>
    intro cur
    exact List.Perm.refl _
  | cons b rest ih =>
    intro cur
    unfold bubbleCarry
    split
    · exact (List.Perm.cons b (ih cur)).trans (List.Perm.swap cur b rest)
    · exact List.Perm.cons cur (ih b)

lemma bubblePass_perm (l : List Candidate) : (bubblePass l).Perm l := by
  cases l with
  | nil => exact List.Perm.refl _
  | cons a rest => exact bubbleCarry_perm rest a

lemma bubblePassN_perm : ∀ (n : Nat) (l : List Candidate),
    (bubblePassN n l).Perm l := by
  intro n
  induction n with
  | zero => intro l; exact List.Perm.refl _
  | succ n ih =>
    intro l
    exact (ih (bubblePass l)).trans (bubblePass_perm l)

lemma sortCandidates_perm (l : List Candidate) :
    (sortCandidates l).Perm l :=
  bubblePassN_perm (l.length - 1) l

/-- The top-image collection keeps at most `limit` pairwise distinct
URLs, each taken from the candidate list or from the accumulator. -/
lemma getTopAux_spec (limit : Nat) :
    ∀ (l : List Candidate) (acc : List (List Char)),
      acc.Nodup → acc.length < limit →
      (getTopAux limit l acc).length ≤ limit ∧
      (getTopAux limit l acc).Nodup ∧
      (∀ u ∈ getTopAux limit l acc, u ∈ acc ∨ ∃ c ∈ l, c.url = u) := by
  intro l
  induction l with
  | nil =>
    intro acc hnd hlen
    unfold getTopAux
    refine ⟨by simpa using Nat.le_of_lt hlen, by simpa using hnd, ?_⟩
    intro u hu
    exact Or.inl (by simpa using hu)
  | cons c rest ih =>
    intro acc hnd hlen
    have hstep : getTopAux limit (c :: rest) acc =
        if c.url ∈ acc then getTopAux limit rest acc
        else if limit ≤ (c.url :: acc).length then (c.url :: acc).reverse
        else getTopAux limit rest (c.url :: acc) := rfl
    by_cases hmem : c.url ∈ acc
    · rw [hstep, if_pos hmem]
      obtain ⟨a1, a2, a3⟩ := ih acc hnd hlen
      refine ⟨a1, a2, ?_⟩
      intro u hu
      rcases a3 u hu with h | ⟨c2, hc2, hu2⟩
      · exact Or.inl h
      · exact Or.inr ⟨c2, List.mem_cons_of_mem _ hc2, hu2⟩
    · by_cases hstop : limit ≤ (c.url :: acc).length
      · rw [hstep, if_neg hmem, if_pos hstop]
        refine ⟨?_, ?_, ?_⟩
        · simp only [List.length_reverse, List.length_cons]
          omega
        · simp only [List.nodup_reverse]
          exact List.nodup_cons.mpr ⟨hmem, hnd⟩
        · intro u hu
          rw [List.mem_reverse] at hu
          rcases List.mem_cons.mp hu with h | h
          · exact Or.inr ⟨c, List.mem_cons_self _ _, h.symm⟩
          · exact Or.inl h
      · rw [hstep, if_neg hmem, if_neg hstop]
        obtain ⟨a1, a2, a3⟩ := ih (c.url :: acc)
          (List.nodup_cons.mpr ⟨hmem, hnd⟩)
          (by simp only [List.length_cons] at hstop ⊢; omega)
        refine ⟨a1, a2, ?_⟩
        intro u hu
        rcases a3 u hu with h | ⟨c2, hc2, hu2⟩
        · rcases List.mem_cons.mp h with h2 | h2
          · exact Or.inr ⟨c, List.mem_cons_self _ _, h2.symm⟩
          · exact Or.inl h2
        · exact Or.inr ⟨c2, List.mem_cons_of_mem _ hc2, hu2⟩

/-- Every candidate surviving the filter step keeps the URL of a
candidate of the input list. -/
lemma filterAndScore_url {c2 : Candidate} {l : List Candidate}
    (h : c2 ∈ filterAndScoreCandidates l) : ∃ c ∈ l, c2.url = c.url := by
  unfold filterAndScoreCandidates at h
  obtain ⟨c, hc, he⟩ := List.mem_filterMap.mp h
  refine ⟨c, hc, ?_⟩
  split at he
  · rw [← Option.some.inj he]
  · exact absurd he (by simp)

/-- Every candidate produced by the og:image extractor carries a URL
that passed the image-extension regex and came out of the resolver. -/
lemma extractOgImage_sound {resolve : List Char → List Char → Option (List Char)}
    {baseURL ogURL : List Char} {w0 h0 : Int} {c : Candidate}
    (h : extractOgImage resolve baseURL ogURL w0 h0 = some c) :
    imageExtMatch c.url = true ∧ ∃ raw, resolve raw baseURL = some c.url := by
  unfold extractOgImage at h
  split at h
  · exact absurd h (by simp)
  · split at h
    next heq => exact absurd h (by simp)
    next absURL heq =>
      split at h
      next hcond => exact absurd h (by simp)
      next hcond =>
        have hb : imageExtMatch absURL = true := by
          simpa using hcond
        simp only [Option.some.injEq] at h
        subst h
        exact ⟨hb, ogURL, heq⟩

/-- Every candidate produced by the img-tag extractor carries a URL
that passed the image-extension regex and came out of the resolver. -/
lemma extractImgTag_sound {resolve : List Char → List Char → Option (List Char)}
    {baseURL : List Char} {t : ImgTag} {c : Candidate}
    (h : extractImgTag resolve baseURL t = some c) :
    imageExtMatch c.url = true ∧ ∃ raw, resolve raw baseURL = some c.url := by
  unfold extractImgTag at h
  split at h
  · exact absurd h (by simp)
  · split at h
    next heq => exact absurd h (by simp)
    next absURL heq =>
      split at h
      next hcond => exact absurd h (by simp)
      next hcond =>
        have hb : imageExtMatch absURL = true := by
          simpa using hcond
        simp only [Option.some.injEq] at h
        subst h
        exact ⟨hb, imgSrcOf t, heq⟩

/-- Claim C1, amended: for every resolver, base URL, og:image data and
img-tag list, the image selector returns at most three pairwise
distinct URLs, each of which passed the imageExt regex (the extension
followed by end-of-string, ? or # may occur anywhere in the URL, not
necessarily at the end of the path) and each of which is an output of
the URL resolver against the base URL (hence absolute and valid
exactly when resolution guarantees it). -/
theorem C1_selector_output_invariants
    (resolve : List Char → List Char → Option (List Char))
    (baseURL ogURL : List Char) (ogW ogH : Int) (tags : List ImgTag) :
    (ExtractImagesFromHTML resolve baseURL ogURL ogW ogH tags).length ≤ 3 ∧
    (ExtractImagesFromHTML resolve baseURL ogURL ogW ogH tags).Nodup ∧
    ∀ u ∈ ExtractImagesFromHTML resolve baseURL ogURL ogW ogH tags,
      imageExtMatch u = true ∧ ∃ raw, resolve raw baseURL = some u := by
  unfold ExtractImagesFromHTML getTopImages
  obtain ⟨a1, a2, a3⟩ := getTopAux_spec 3
    (sortCandidates (filterAndScoreCandidates
      ((match extractOgImage resolve baseURL ogURL ogW ogH with
        | some c => [c]
        | none => []) ++ tags.filterMap (extractImgTag resolve baseURL))))
    [] List.nodup_nil (by decide)
  refine ⟨a1, a2, ?_⟩
  intro u hu
  rcases a3 u hu with h | ⟨c, hc, hurl⟩
  · exact absurd h (List.not_mem_nil u)
  · have hc2 : c ∈ filterAndScoreCandidates
        ((match extractOgImage resolve baseURL ogURL ogW ogH with
          | some c => [c]
          | none => []) ++ tags.filterMap (extractImgTag resolve baseURL)) :=
      (sortCandidates_perm _).mem_iff.mp hc
    obtain ⟨c0, hc0, hurl0⟩ := filterAndScore_url hc2
    have hprops : imageExtMatch c0.url = true ∧
        ∃ raw, resolve raw baseURL = some c0.url := by
      rcases List.mem_append.mp hc0 with hog | himg
      · cases hogeq : extractOgImage resolve baseURL ogURL ogW ogH with
        | none =>
          rw [hogeq] at hog
          exact absurd hog (List.not_mem_nil c0)
        | some c1 =>
          rw [hogeq] at hog
          rw [List.mem_singleton.mp hog]
          exact extractOgImage_sound hogeq
      · obtain ⟨t, _, hteq⟩ := List.mem_filterMap.mp himg
        exact extractImgTag_sound hteq
    have huc : u = c0.url := by
      rw [← hurl, hurl0]
    rw [huc]
    exact hprops

/-- Claim C1, counterexample: a URL whose path ends in .html but whose
query names a .jpg file passes the unanchored imageExt regex and is
returned by the selector, although its path does not end in an allowed
image extension as the claim requires.  The resolver is instantiated
with the function returning its input unchanged, which is what
net/url's ResolveReference does for this already absolute source
URL. -/
theorem C1_query_extension_counterexample :
    ExtractImagesFromHTML (fun raw _ => some raw) "https://x.com/".toList
        [] 0 0 [{ src := some "https://x.com/page.html?img=a.jpg".toList }] =
      ["https://x.com/page.html?img=a.jpg".toList] ∧
    specPathEndsInImageExt "https://x.com/page.html?img=a.jpg".toList = false ∧
    imageExtMatch "https://x.com/page.html?img=a.jpg".toList = true := by
  decide

/-- Witness for the amended Claim C1 at a concrete run: the single
returned URL passed the extension regex and is a resolver output. -/
theorem C1_selector_witness :
    imageExtMatch "https://cdn.example.com/a.jpg".toList = true ∧
    ∃ raw, (fun (raw _ : List Char) => (some raw : Option (List Char))) raw
        "https://x.com/".toList = some "https://cdn.example.com/a.jpg".toList := by
  have h := C1_selector_output_invariants (fun raw _ => some raw)
    "https://x.com/".toList [] 0 0
    [{ src := some "https://cdn.example.com/a.jpg".toList }]
  exact h.2.2 "https://cdn.example.com/a.jpg".toList (by decide)
